import Mathlib

/-!
Verification of the schema-selection core of the meridyen-ai/sandbox frontend.

The definitions below are shallow embeddings of the selection logic found in
  * src/frontend/src/components/dataset/DatasetPage.tsx   (namespace `DatasetPage`)
  * src/frontend/src/components/connections/TableColumnSelector.tsx
                                                          (namespace `TableColumnSelector`)

A JavaScript object used as a string-keyed map (`SelectedSchema`) is embedded
as an association list with the object's key semantics: property lookup
returns the value of the (unique) matching key, and the spread update
`{...prev, [k]: v}` replaces the value at an existing key in place or
appends a fresh key at the end.  `Object.entries`/`Object.keys` enumerate in
that same order.
-/

/-- One value of the `SelectedSchema` map: `{ selected: boolean, columns: string[] }`
(src/frontend/src/types, wire shape `fullName -> { selected, columns }`). -/
structure SelectionEntry where
  selected : Bool
  columns : List String
deriving Repr, DecidableEq

/-- `SelectedSchema`: JS object mapping `fullName` to an entry, embedded as an
association list in the object's property order. -/
abbrev SelectedSchema := List (String × SelectionEntry)

/-- JS property access `m[k]` / `m[k]?` on a `SelectedSchema` object:
the value at the first (in a well-formed object, the only) matching key. -/
def lookupEntry : SelectedSchema → String → Option SelectionEntry
  | [], _ => Option.none
  | p :: rest, key => if key = p.1 then Option.some p.2 else lookupEntry rest key

/-- JS spread update `{...m, [k]: v}`: replaces the value at `k` in place when
the key is present, otherwise appends the new key at the end. -/
def setEntry (m : SelectedSchema) (k : String) (v : SelectionEntry) : SelectedSchema :=
  match lookupEntry m k with
  | Option.some _ => m.map (fun p => if p.1 = k then (k, v) else p)
  | Option.none => m ++ [(k, v)]

/-- The tri-state aggregate `'none' | 'some' | 'all'` returned by
`getTableSelectionState` / `getHeaderCheckboxState`. -/
inductive TriState where
  | NONE
  | SOME
  | ALL
deriving Repr, DecidableEq

/-- `sub.isPrefixOf l`, spelled out on characters. -/
def charsHavePrefix : List Char → List Char → Bool
  | [], _ => true
  | _ :: _, [] => false
  | a :: as, b :: bs => a = b && charsHavePrefix as bs

/-- Occurrence of `sub` as a contiguous run inside `l`. -/
def charsHaveSub (sub : List Char) : List Char → Bool
  | [] => sub.isEmpty
  | c :: cs => charsHavePrefix sub (c :: cs) || charsHaveSub sub cs

/-- JS `s.includes(sub)`: `sub` occurs as a contiguous substring of `s`
(the empty string occurs in every string, as in JS). -/
def jsIncludes (s sub : String) : Bool := charsHaveSub sub.toList s.toList

/-- JS `s.toLowerCase()`: characterwise lowering, the semantics of
`String.toLower` spelled on the character list. -/
def jsToLower (s : String) : String := String.mk (s.data.map Char.toLower)

/-- Spec invariant 1 for one entry: `selected == (columns.size > 0)`. -/
def entryInvariant (e : SelectionEntry) : Prop :=
  e.selected = decide (e.columns.length > 0)

/-- Spec invariant 1 for a whole `SelectedSchema`: every entry satisfies
`selected == (columns.size > 0)`. -/
def schemaInvariant (m : SelectedSchema) : Prop :=
  ∀ p ∈ m, entryInvariant p.2

instance : DecidablePred entryInvariant := fun e => by
  unfold entryInvariant; infer_instance

instance (m : SelectedSchema) : Decidable (schemaInvariant m) := by
  unfold schemaInvariant; infer_instance

-- Basic laws of the JS object embedding.

@[simp]
theorem lookupEntry_nil (k : String) : lookupEntry [] k = Option.none := rfl

@[simp]
theorem lookupEntry_cons (p : String × SelectionEntry) (rest : SelectedSchema) (key : String) :
    lookupEntry (p :: rest) key =
      if key = p.1 then Option.some p.2 else lookupEntry rest key := rfl

theorem lookupEntry_map_set_of_some (m : SelectedSchema) (k : String) (v w : SelectionEntry)
    (h : lookupEntry m k = Option.some w) :
    lookupEntry (m.map (fun p => if p.1 = k then (k, v) else p)) k = Option.some v := by
  induction m with
  | nil => simp at h
  | cons p rest ih =>
    by_cases hk : k = p.1
    · simp [hk.symm]
    · have hne : p.1 ≠ k := fun hc => hk hc.symm
      simp only [lookupEntry_cons, hk, if_false] at h
      simp [hne, hk, ih h]

theorem lookupEntry_append_of_none {a : SelectedSchema} (b : SelectedSchema) {k : String}
    (h : lookupEntry a k = Option.none) : lookupEntry (a ++ b) k = lookupEntry b k := by
  induction a with
  | nil => simp
  | cons p rest ih =>
    simp only [lookupEntry_cons] at h
    by_cases hk : k = p.1
    · simp [hk] at h
    · simp only [hk, if_false] at h
      simp only [List.cons_append, lookupEntry_cons, hk, if_false]
      exact ih h

theorem setEntry_of_lookup_none {m : SelectedSchema} {k : String} (v : SelectionEntry)
    (h : lookupEntry m k = Option.none) : setEntry m k v = m ++ [(k, v)] := by
  unfold setEntry
  rw [h]

theorem lookupEntry_setEntry_self (m : SelectedSchema) (k : String) (v : SelectionEntry) :
    lookupEntry (setEntry m k v) k = Option.some v := by
  unfold setEntry
  cases h : lookupEntry m k with
  | none => rw [lookupEntry_append_of_none _ h]; simp
  | some w => exact lookupEntry_map_set_of_some m k v w h

theorem lookupEntry_map_set_ne (m : SelectedSchema) (k k' : String) (v : SelectionEntry)
    (h : k' ≠ k) :
    lookupEntry (m.map (fun p => if p.1 = k then (k, v) else p)) k' = lookupEntry m k' := by
  induction m with
  | nil => simp
  | cons p rest ih =>
    by_cases hk : p.1 = k
    · simp [hk, h, ih]
    · by_cases hk' : k' = p.1
      · simp [hk, hk']
      · simp [hk, hk', ih]

theorem lookupEntry_append_single_ne (m : SelectedSchema) (k k' : String) (v : SelectionEntry)
    (h : k' ≠ k) : lookupEntry (m ++ [(k, v)]) k' = lookupEntry m k' := by
  induction m with
  | nil => simp [h]
  | cons p rest ih =>
    simp only [List.cons_append, lookupEntry_cons, ih]

theorem lookupEntry_setEntry_ne (m : SelectedSchema) (k k' : String) (v : SelectionEntry)
    (h : k' ≠ k) : lookupEntry (setEntry m k v) k' = lookupEntry m k' := by
  cases hl : lookupEntry m k with
  | none =>
    rw [setEntry_of_lookup_none v hl]
    exact lookupEntry_append_single_ne m k k' v h
  | some w =>
    unfold setEntry
    rw [hl]
    exact lookupEntry_map_set_ne m k k' v h

theorem mem_setEntry {m : SelectedSchema} {k : String} {v : SelectionEntry}
    {p : String × SelectionEntry} (hp : p ∈ setEntry m k v) : p = (k, v) ∨ p ∈ m := by
  unfold setEntry at hp
  cases hl : lookupEntry m k with
  | none =>
    rw [hl] at hp
    rcases List.mem_append.mp hp with h1 | h2
    · exact Or.inr h1
    · exact Or.inl (List.mem_singleton.mp h2)
  | some w =>
    rw [hl] at hp
    rcases List.mem_map.mp hp with ⟨q, hq, hfq⟩
    by_cases hk : q.1 = k
    · simp only [hk, if_true] at hfq
      exact Or.inl hfq.symm
    · simp only [hk, if_false] at hfq
      exact Or.inr (hfq ▸ hq)

theorem setEntry_preserves_invariant {m : SelectedSchema} {k : String} {v : SelectionEntry}
    (hm : schemaInvariant m) (hv : entryInvariant v) : schemaInvariant (setEntry m k v) := by
  intro p hp
  rcases mem_setEntry hp with h | h
  · rw [h]; exact hv
  · exact hm p h

theorem lookupEntry_some_mem {m : SelectedSchema} {k : String} {v : SelectionEntry}
    (h : lookupEntry m k = Option.some v) : (k, v) ∈ m := by
  induction m with
  | nil => simp at h
  | cons p rest ih =>
    simp only [lookupEntry_cons] at h
    by_cases hk : k = p.1
    · simp only [hk, if_true, Option.some.injEq] at h
      have hpv : (k, v) = p := by
        obtain ⟨a, b⟩ := p
        simp only at hk h
        simp [hk, h.symm]
      rw [hpv]
      exact List.mem_cons_self _ _
    · simp only [hk, if_false] at h
      exact List.mem_cons_of_mem _ (ih h)

/-! ## DatasetPage.tsx

Embeddings of the selection logic of
`src/frontend/src/components/dataset/DatasetPage.tsx`.  React state reads
(`selectedSchema`, `selectedTable`, `schema`) become explicit parameters, and
each `setSelectedSchema` updater becomes a function from the previous
`SelectedSchema` to the next one.  `schemaName` stands for the already
resolved `schema?.schema || 'public'`.
-/

/-- `Column` of a `Table` from the schema snapshot (src/frontend/src/types):
only the fields the selection logic reads (`name`, `type`) are carried. -/
structure Column where
  name : String
  type : String
deriving Repr, DecidableEq

/-- `Table` of the schema snapshot: `{ name, columns }`. -/
structure Table where
  name : String
  columns : List Column
deriving Repr, DecidableEq

/-- `TableSampleData` as consumed by the samples tab: the fetched column
order `columns` and the sample `rows`.  A row (JS `Record<string, unknown>`)
is carried as its rendered cells, column key paired with cell text; the
samples-tab logic reads only `columns`, `rows.length` and the per-column
cell lookups, and `total_rows` is display-only (not modelled). -/
structure TableSampleData where
  columns : List String
  rows : List (List (String × String))
deriving Repr, DecidableEq

/-- The `'all' | 'selected'` sidebar tab. -/
inductive SidebarTab where
  | all
  | selected
deriving Repr, DecidableEq

namespace DatasetPage

/-- `getTableFullName` (line 255): `${schemaName}.${table.name}`. -/
def getTableFullName (schemaName : String) (table : Table) : String :=
  schemaName ++ "." ++ table.name

/-- `useState<SelectedSchema>({})` (line 161): the initial in-memory selection. -/
def initialSelectedSchema : SelectedSchema := []

/-- The `useEffect` on a successfully loaded saved selection (lines 193-200):
adopts the saved map wholesale when it has at least one key, otherwise leaves
the current state untouched. -/
def applySavedSelection (savedSelection : SelectedSchema) (current : SelectedSchema) :
    SelectedSchema :=
  if savedSelection.length > 0 then savedSelection else current

/-- `tablesWithSelections` (lines 216-224): tables of the snapshot whose entry
exists and has at least one selected column. -/
def tablesWithSelections (tables : List Table) (schemaName : String)
    (selectedSchema : SelectedSchema) : List Table :=
  tables.filter (fun t =>
    match lookupEntry selectedSchema (getTableFullName schemaName t) with
    | Option.some sel => decide (sel.columns.length > 0)
    | Option.none => false)

/-- The tab/search filter stage of `groupedTables` (lines 227-233): the
`Selected` tab restricts to `tablesWithSelections`, then a non-empty query
keeps tables whose lowercased name contains the lowercased query.  The
subsequent `localeCompare` sort (line 238) only reorders and is not modelled. -/
def groupedTablesTables (tables : List Table) (schemaName : String)
    (selectedSchema : SelectedSchema) (sidebarTab : SidebarTab) (q : String) : List Table :=
  let baseTables :=
    if sidebarTab = SidebarTab.selected
    then tablesWithSelections tables schemaName selectedSchema
    else tables
  if q ≠ "" then
    baseTables.filter (fun t => jsIncludes (jsToLower t.name) (jsToLower q))
  else baseTables

/-- `getTableSelectionState` (lines 260-266). -/
def getTableSelectionState (schemaName : String) (selectedSchema : SelectedSchema)
    (table : Table) : TriState :=
  match lookupEntry selectedSchema (getTableFullName schemaName table) with
  | Option.none => TriState.NONE
  | Option.some selection =>
    if selection.columns.length = 0 then TriState.NONE
    else if selection.columns.length = table.columns.length then TriState.ALL
    else TriState.SOME

/-- `handleToggleTableColumns` (lines 268-288): the sidebar checkbox toggle.
`currentSelection?.columns.length === table.columns.length` is `false` when
the entry is absent (`undefined === n`). -/
def handleToggleTableColumns (schemaName : String) (table : Table)
    (prev : SelectedSchema) : SelectedSchema :=
  let fullName := getTableFullName schemaName table
  let allSelected :=
    match lookupEntry prev fullName with
    | Option.some currentSelection =>
        decide (currentSelection.columns.length = table.columns.length)
    | Option.none => false
  if allSelected then
    setEntry prev fullName { selected := false, columns := [] }
  else
    setEntry prev fullName
      { selected := true, columns := table.columns.map (fun c => c.name) }

/-- `handleToggleColumn` (lines 290-304): flips one column of the focused
table; `selected` is recomputed as `columns.length > 0`.  Returns the state
unchanged when no table is focused (`if (!selectedTable) return`). -/
def handleToggleColumn (schemaName : String) (selectedTable : Option Table)
    (columnName : String) (prev : SelectedSchema) : SelectedSchema :=
  match selectedTable with
  | Option.none => prev
  | Option.some selTable =>
    let fullName := getTableFullName schemaName selTable
    let current := (lookupEntry prev fullName).getD { selected := false, columns := [] }
    let columns :=
      if current.columns.contains columnName
      then current.columns.filter (fun c => c != columnName)
      else current.columns ++ [columnName]
    setEntry prev fullName { selected := decide (columns.length > 0), columns := columns }

/-- `handleToggleAllColumns` (lines 306-326): the detail-header checkbox;
same algorithm as `handleToggleTableColumns` applied to the focused table. -/
def handleToggleAllColumns (schemaName : String) (selectedTable : Option Table)
    (prev : SelectedSchema) : SelectedSchema :=
  match selectedTable with
  | Option.none => prev
  | Option.some selTable =>
    let fullName := getTableFullName schemaName selTable
    let allSelected :=
      match lookupEntry prev fullName with
      | Option.some currentSelection =>
          decide (currentSelection.columns.length = selTable.columns.length)
      | Option.none => false
    if allSelected then
      setEntry prev fullName { selected := false, columns := [] }
    else
      setEntry prev fullName
        { selected := true, columns := selTable.columns.map (fun c => c.name) }

/-- `getHeaderCheckboxState` (lines 328-335). -/
def getHeaderCheckboxState (schemaName : String) (selectedSchema : SelectedSchema)
    (selectedTable : Option Table) : TriState :=
  match selectedTable with
  | Option.none => TriState.NONE
  | Option.some t =>
    match lookupEntry selectedSchema (getTableFullName schemaName t) with
    | Option.none => TriState.NONE
    | Option.some selection =>
      if selection.columns.length = 0 then TriState.NONE
      else if selection.columns.length = t.columns.length then TriState.ALL
      else TriState.SOME

/-- The `cleanedSchema` built inside `handleSaveSelection` (lines 343-348):
iterates `Object.entries(selectedSchema)` and copies over exactly the entries
with `value.selected && value.columns.length > 0`. -/
def cleanedSchema (selectedSchema : SelectedSchema) : SelectedSchema :=
  selectedSchema.foldl
    (fun acc p =>
      if p.2.selected && decide (p.2.columns.length > 0) then setEntry acc p.1 p.2 else acc)
    []

/-- `filteredColumns` (lines 377-386): columns of the focused table whose
lowercased name or type contains the lowercased query; all of them when the
query is empty, and `[]` when no table is focused. -/
def filteredColumns (selectedTable : Option Table) (columnSearchQuery : String) :
    List Column :=
  match selectedTable with
  | Option.none => []
  | Option.some t =>
    if columnSearchQuery = "" then t.columns
    else
      t.columns.filter (fun col =>
        jsIncludes (jsToLower col.name) (jsToLower columnSearchQuery) ||
        jsIncludes (jsToLower col.type) (jsToLower columnSearchQuery))

/-- The `displayColumns` computation of the samples tab (lines 878-882): the
fetched sample columns filtered to the selected column names, all of them
when no column is selected, and `[]` when no samples are loaded.  Whether
this value is displayed at all is decided by the enclosing render branch,
embedded as `samplesTabRender` below. -/
def displayColumns (samples : Option TableSampleData) (selectedColumnNames : List String) :
    List String :=
  match samples with
  | Option.none => []
  | Option.some s =>
    if selectedColumnNames.length > 0 then
      s.columns.filter (fun c => selectedColumnNames.contains c)
    else s.columns

/-- What the samples tab body renders (lines 884-956): the loading panel,
the "No columns selected" panel, the sample table headed by
`displayColumns`, or the "No sample data available" panel. -/
inductive SamplesTabView where
  | loadingPanel
  | noColumnsSelectedPanel
  | sampleTable (displayColumns : List String)
  | noDataPanel
deriving Repr, DecidableEq

/-- The samples tab's render branch (lines 886-955): the conditional chain
`samplesLoading ? <loading> : selectedColumnNames.length === 0 ?
<"No columns selected"> : samples && samples.rows.length > 0 &&
displayColumns.length > 0 ? <table headed by displayColumns> :
<"No sample data available">`. -/
def samplesTabRender (samplesLoading : Bool) (samples : Option TableSampleData)
    (selectedColumnNames : List String) : SamplesTabView :=
  let displayColumns := displayColumns samples selectedColumnNames
  if samplesLoading then SamplesTabView.loadingPanel
  else if selectedColumnNames.length = 0 then SamplesTabView.noColumnsSelectedPanel
  else if (match samples with
      | Option.some s => decide (s.rows.length > 0)
      | Option.none => false) && decide (displayColumns.length > 0) then
    SamplesTabView.sampleTable displayColumns
  else SamplesTabView.noDataPanel

end DatasetPage

/-! ## TableColumnSelector.tsx

Embeddings of the selection logic of
`src/frontend/src/components/connections/TableColumnSelector.tsx`.  Tables
here carry the MVP shape `TableWithColumns` with a stored `full_name`, as
produced by `schemaDataToTableWithColumns`.
-/

/-- Column of a `TableWithColumns` (`name`, `data_type`, ...): only the fields
the selection logic reads are carried. -/
structure TCColumn where
  name : String
  data_type : String
deriving Repr, DecidableEq

/-- `TableWithColumns` (MVP format produced by `schemaDataToTableWithColumns`,
lines 55-70): `schema_name`, `table_name`, a precomputed
`full_name = "{schema_name}.{table_name}"`, and the column list. -/
structure TableWithColumns where
  schema_name : String
  table_name : String
  full_name : String
  columns : List TCColumn
deriving Repr, DecidableEq

namespace TableColumnSelector

/-- The selection part of `loadSchema` (lines 107-117): when there is no
initial selection (absent or empty), every table of the fetched schema gets a
placeholder entry `{selected: false, columns: []}`; otherwise the selection
state (initialised to `initialSelectedSchema` on line 88) is left as it is. -/
def defaultSelection (data : List TableWithColumns) : SelectedSchema :=
  data.foldl
    (fun acc table => setEntry acc table.full_name { selected := false, columns := [] })
    []

/-- The `selectedSchema` state right after `loadSchema` ran (lines 88-90 and
107-117), as a function of the `initialSelectedSchema` prop and the fetched
tables. -/
def loadSchemaSelection (initialSelectedSchema : Option SelectedSchema)
    (data : List TableWithColumns) : SelectedSchema :=
  match initialSelectedSchema with
  | Option.none => defaultSelection data
  | Option.some initial =>
      if initial.length = 0 then defaultSelection data else initial

/-- `tablesWithSelections` (lines 140-145). -/
def tablesWithSelections (schema : List TableWithColumns)
    (selectedSchema : SelectedSchema) : List TableWithColumns :=
  schema.filter (fun table =>
    match lookupEntry selectedSchema table.full_name with
    | Option.some selection => decide (selection.columns.length > 0)
    | Option.none => false)

/-- The tab/search filter stage of `groupedTables` (lines 148-161,
`filteredSchema`): the `selected` tab restricts to `tablesWithSelections`,
then a non-empty query keeps tables whose lowercased table name OR schema
name contains the lowercased query.  The grouping by schema name and the
`localeCompare` sorts (lines 163-181) only regroup/reorder the same tables
and are not modelled. -/
def filteredSchema (schema : List TableWithColumns) (selectedSchema : SelectedSchema)
    (activeTab : SidebarTab) (searchQuery : String) : List TableWithColumns :=
  let baseTables :=
    if activeTab = SidebarTab.selected
    then tablesWithSelections schema selectedSchema
    else schema
  if searchQuery ≠ "" then
    baseTables.filter (fun table =>
      jsIncludes (jsToLower table.table_name) (jsToLower searchQuery) ||
      jsIncludes (jsToLower table.schema_name) (jsToLower searchQuery))
  else baseTables

/-- `handleToggleColumn` (lines 222-240). -/
def handleToggleColumn (selectedTable : Option TableWithColumns) (columnName : String)
    (prev : SelectedSchema) : SelectedSchema :=
  match selectedTable with
  | Option.none => prev
  | Option.some selTable =>
    let tableKey := selTable.full_name
    let current := (lookupEntry prev tableKey).getD { selected := false, columns := [] }
    let columns :=
      if current.columns.contains columnName
      then current.columns.filter (fun c => c != columnName)
      else current.columns ++ [columnName]
    setEntry prev tableKey { selected := decide (columns.length > 0), columns := columns }

/-- `handleToggleAllColumns` (lines 242-265): the detail-header checkbox. -/
def handleToggleAllColumns (selectedTable : Option TableWithColumns)
    (prev : SelectedSchema) : SelectedSchema :=
  match selectedTable with
  | Option.none => prev
  | Option.some selTable =>
    let allSelected :=
      match lookupEntry prev selTable.full_name with
      | Option.some currentSelection =>
          decide (currentSelection.columns.length = selTable.columns.length)
      | Option.none => false
    if allSelected then
      setEntry prev selTable.full_name { selected := false, columns := [] }
    else
      setEntry prev selTable.full_name
        { selected := true, columns := selTable.columns.map (fun c => c.name) }

/-- `handleToggleTableColumns` (lines 268-291): the sidebar checkbox toggle. -/
def handleToggleTableColumns (table : TableWithColumns) (prev : SelectedSchema) :
    SelectedSchema :=
  let allSelected :=
    match lookupEntry prev table.full_name with
    | Option.some currentSelection =>
        decide (currentSelection.columns.length = table.columns.length)
    | Option.none => false
  if allSelected then
    setEntry prev table.full_name { selected := false, columns := [] }
  else
    setEntry prev table.full_name
      { selected := true, columns := table.columns.map (fun c => c.name) }

/-- `getTableSelectionState` (lines 293-298). -/
def getTableSelectionState (selectedSchema : SelectedSchema) (table : TableWithColumns) :
    TriState :=
  match lookupEntry selectedSchema table.full_name with
  | Option.none => TriState.NONE
  | Option.some selection =>
    if selection.columns.length = 0 then TriState.NONE
    else if selection.columns.length = table.columns.length then TriState.ALL
    else TriState.SOME

/-- `getHeaderCheckboxState` (lines 300-306). -/
def getHeaderCheckboxState (selectedSchema : SelectedSchema)
    (selectedTable : Option TableWithColumns) : TriState :=
  match selectedTable with
  | Option.none => TriState.NONE
  | Option.some t =>
    match lookupEntry selectedSchema t.full_name with
    | Option.none => TriState.NONE
    | Option.some selection =>
      if selection.columns.length = 0 then TriState.NONE
      else if selection.columns.length = t.columns.length then TriState.ALL
      else TriState.SOME

/-- The `cleanedSchema` built inside `handleConfirm` (lines 308-316). -/
def cleanedSchema (selectedSchema : SelectedSchema) : SelectedSchema :=
  selectedSchema.foldl
    (fun acc p =>
      if p.2.selected && decide (p.2.columns.length > 0) then setEntry acc p.1 p.2 else acc)
    []

end TableColumnSelector

/-! ## Support lemmas about the fold-built maps -/

/-- The save filter `value.selected && value.columns.length > 0` shared by
`handleSaveSelection` (DatasetPage) and `handleConfirm` (TableColumnSelector). -/
def keepsEntry (p : String × SelectionEntry) : Bool :=
  p.2.selected && decide (p.2.columns.length > 0)

theorem cleanFold_eq_append (m : SelectedSchema) :
    ∀ acc : SelectedSchema,
      ((m.filter keepsEntry).map Prod.fst).Nodup →
      (∀ p ∈ m.filter keepsEntry, lookupEntry acc p.1 = Option.none) →
      m.foldl (fun a q => if keepsEntry q then setEntry a q.1 q.2 else a) acc
        = acc ++ m.filter keepsEntry := by
  induction m with
  | nil =>
    intro acc _ _
    simp
  | cons p rest ih =>
    intro acc hnd hacc
    by_cases hp : keepsEntry p
    · have hfc : (p :: rest).filter keepsEntry = p :: rest.filter keepsEntry := by
        simp [List.filter_cons, hp]
      rw [hfc] at hnd hacc
      have hlp : lookupEntry acc p.1 = Option.none := hacc p (List.mem_cons_self _ _)
      simp only [List.map_cons, List.nodup_cons] at hnd
      have hacc' : ∀ q ∈ rest.filter keepsEntry,
          lookupEntry (acc ++ [p]) q.1 = Option.none := by
        intro q hq
        have h1 : lookupEntry acc q.1 = Option.none := hacc q (List.mem_cons_of_mem _ hq)
        rw [lookupEntry_append_of_none _ h1]
        have hne : q.1 ≠ p.1 := by
          intro hc
          exact hnd.1 (hc ▸ List.mem_map_of_mem Prod.fst hq)
        simp [hne]
      have hstep : setEntry acc p.1 p.2 = acc ++ [p] := by
        rw [setEntry_of_lookup_none _ hlp]
      rw [List.foldl_cons, if_pos hp, hstep, ih (acc ++ [p]) hnd.2 hacc', hfc]
      simp
    · have hfc : (p :: rest).filter keepsEntry = rest.filter keepsEntry := by
        simp [List.filter_cons, hp]
      rw [hfc] at hnd hacc
      rw [List.foldl_cons, if_neg hp, hfc]
      exact ih acc hnd hacc

/-- For a well-formed map (unique keys, as every JS object has), the cleaning
fold of `handleSaveSelection` is exactly a filter of the entry list. -/
theorem cleanedSchema_eq_filter (m : SelectedSchema) (h : (m.map Prod.fst).Nodup) :
    DatasetPage.cleanedSchema m = m.filter keepsEntry := by
  have hsub : ((m.filter keepsEntry).map Prod.fst).Sublist (m.map Prod.fst) :=
    (List.filter_sublist m).map Prod.fst
  have hnd : ((m.filter keepsEntry).map Prod.fst).Nodup := h.sublist hsub
  exact cleanFold_eq_append m [] hnd (fun p _ => rfl)

/-- `handleConfirm`'s cleaning (TableColumnSelector) is the same computation
as `handleSaveSelection`'s (DatasetPage). -/
theorem cleanedSchema_TCS_eq_DP (m : SelectedSchema) :
    TableColumnSelector.cleanedSchema m = DatasetPage.cleanedSchema m := rfl

theorem lookupEntry_setEntry_isSome (m : SelectedSchema) (k k' : String) (v : SelectionEntry)
    (h : (lookupEntry m k').isSome) : (lookupEntry (setEntry m k v) k').isSome := by
  by_cases hk : k' = k
  · subst hk
    rw [lookupEntry_setEntry_self]
    rfl
  · rw [lookupEntry_setEntry_ne m k k' v hk]
    exact h

theorem defaultSelectionFold_values (data : List TableWithColumns) :
    ∀ acc : SelectedSchema,
      (∀ q ∈ acc, q.2 = { selected := false, columns := [] }) →
      ∀ q ∈ data.foldl
          (fun a t => setEntry a t.full_name { selected := false, columns := [] }) acc,
        q.2 = { selected := false, columns := [] } := by
  induction data with
  | nil =>
    intro acc h q hq
    exact h q hq
  | cons t rest ih =>
    intro acc h q hq
    simp only [List.foldl_cons] at hq
    refine ih _ ?_ q hq
    intro r hr
    rcases mem_setEntry hr with h1 | h2
    · rw [h1]
    · exact h r h2

theorem defaultSelectionFold_isSome (data : List TableWithColumns) :
    ∀ (acc : SelectedSchema) (k : String),
      (k ∈ data.map (fun t => t.full_name) ∨ (lookupEntry acc k).isSome) →
      (lookupEntry
        (data.foldl
          (fun a t => setEntry a t.full_name { selected := false, columns := [] }) acc)
        k).isSome := by
  induction data with
  | nil =>
    intro acc k h
    rcases h with h | h
    · simp at h
    · exact h
  | cons t rest ih =>
    intro acc k h
    simp only [List.foldl_cons]
    rcases h with h | h
    · simp only [List.map_cons, List.mem_cons] at h
      rcases h with h | h
      · refine ih _ k (Or.inr ?_)
        subst h
        rw [lookupEntry_setEntry_self]
        rfl
      · exact ih _ k (Or.inl h)
    · exact ih _ k (Or.inr (lookupEntry_setEntry_isSome _ _ _ _ h))

/-- Every table of the fetched schema gets exactly the placeholder entry in
`loadSchema`'s default selection. -/
theorem defaultSelection_lookup (data : List TableWithColumns) (tw : TableWithColumns)
    (h : tw ∈ data) :
    lookupEntry (TableColumnSelector.defaultSelection data) tw.full_name
      = Option.some { selected := false, columns := [] } := by
  have hs : (lookupEntry (TableColumnSelector.defaultSelection data) tw.full_name).isSome :=
    defaultSelectionFold_isSome data [] tw.full_name
      (Or.inl (List.mem_map_of_mem _ h))
  cases he : lookupEntry (TableColumnSelector.defaultSelection data) tw.full_name with
  | none =>
    rw [he] at hs
    simp at hs
  | some e =>
    have hmem := lookupEntry_some_mem he
    have hval := defaultSelectionFold_values data [] (by intro q hq; simp at hq) _ hmem
    exact congrArg Option.some hval

/-! ## Claims -/

/-- C3: the cleaning performed by `handleSaveSelection` (DatasetPage) and
`handleConfirm` (TableColumnSelector) returns exactly the entries of the
in-memory `SelectedSchema` with `selected === true` and a non-empty column
list, each passed through unchanged; in particular no entry with an empty
column list (even an inconsistent `{selected: true, columns: []}`) and no
entry with `selected = false` ever appears in the cleaned output. -/
theorem C3_clean_exact (m : SelectedSchema) (p : String × SelectionEntry)
    (h : (m.map Prod.fst).Nodup) :
    (p ∈ DatasetPage.cleanedSchema m ↔
      p ∈ m ∧ p.2.selected = true ∧ p.2.columns.length > 0) ∧
    TableColumnSelector.cleanedSchema m = DatasetPage.cleanedSchema m := by
  refine ⟨?_, rfl⟩
  rw [cleanedSchema_eq_filter m h, List.mem_filter]
  unfold keepsEntry
  simp [and_assoc]

theorem C3_clean_exact_witness :
    ¬ (("public.users", ({ selected := true, columns := [] } : SelectionEntry)) ∈
        DatasetPage.cleanedSchema [("public.users", { selected := true, columns := [] })]) := by
  intro hmem
  have h := (C3_clean_exact [("public.users", { selected := true, columns := [] })]
      ("public.users", { selected := true, columns := [] }) (by decide)).1.mp hmem
  exact absurd h.2.2 (by decide)

/-- The column count of a table's entry, an absent entry counting as zero
columns (JS `selection?.columns.length`, absence treated like the empty
selection). -/
def entryColumnCount (sel : SelectedSchema) (fullName : String) : Nat :=
  ((lookupEntry sel fullName).getD { selected := false, columns := [] }).columns.length

/-- The common tri-state match of `getTableSelectionState` and
`getHeaderCheckboxState`, as a function of the looked-up entry and the
table's column count. -/
def triStateOf (o : Option SelectionEntry) (n : Nat) : TriState :=
  match o with
  | Option.none => TriState.NONE
  | Option.some selection =>
    if selection.columns.length = 0 then TriState.NONE
    else if selection.columns.length = n then TriState.ALL
    else TriState.SOME

theorem triStateOf_char (o : Option SelectionEntry) (n : Nat) :
    (triStateOf o n = TriState.NONE ↔
      (o.getD { selected := false, columns := [] }).columns.length = 0) ∧
    (triStateOf o n = TriState.ALL ↔
      ((o.getD { selected := false, columns := [] }).columns.length = n ∧
        (o.getD { selected := false, columns := [] }).columns.length > 0)) ∧
    (triStateOf o n = TriState.SOME ↔
      ((o.getD { selected := false, columns := [] }).columns.length ≠ 0 ∧
        (o.getD { selected := false, columns := [] }).columns.length ≠ n)) := by
  cases o with
  | none => simp [triStateOf]
  | some e =>
    by_cases h0 : e.columns.length = 0
    · simp [triStateOf, h0]
    · by_cases hall : e.columns.length = n
      · have hn0 : ¬ n = 0 := hall ▸ h0
        simp [triStateOf, h0, hall, hn0, Nat.pos_of_ne_zero hn0]
      · simp [triStateOf, h0, hall]

theorem dp_getTableSelectionState_eq (schemaName : String) (sel : SelectedSchema) (t : Table) :
    DatasetPage.getTableSelectionState schemaName sel t =
      triStateOf (lookupEntry sel (DatasetPage.getTableFullName schemaName t))
        t.columns.length := rfl

theorem tcs_getTableSelectionState_eq (sel : SelectedSchema) (tw : TableWithColumns) :
    TableColumnSelector.getTableSelectionState sel tw =
      triStateOf (lookupEntry sel tw.full_name) tw.columns.length := rfl

/-- C6: the tri-state aggregators of both views report NONE exactly when the
table's entry is absent or empty, ALL exactly when the entry's column count
equals the table's column count and is non-zero, and SOME in every other
case; the focused-table header checkbox agrees with the per-table state. -/
theorem C6_tristate (schemaName : String) (sel : SelectedSchema) (t : Table)
    (tw : TableWithColumns) :
    (DatasetPage.getTableSelectionState schemaName sel t = TriState.NONE ↔
      entryColumnCount sel (DatasetPage.getTableFullName schemaName t) = 0) ∧
    (DatasetPage.getTableSelectionState schemaName sel t = TriState.ALL ↔
      (entryColumnCount sel (DatasetPage.getTableFullName schemaName t) = t.columns.length ∧
        entryColumnCount sel (DatasetPage.getTableFullName schemaName t) > 0)) ∧
    (DatasetPage.getTableSelectionState schemaName sel t = TriState.SOME ↔
      (entryColumnCount sel (DatasetPage.getTableFullName schemaName t) ≠ 0 ∧
        entryColumnCount sel (DatasetPage.getTableFullName schemaName t) ≠ t.columns.length)) ∧
    DatasetPage.getHeaderCheckboxState schemaName sel (Option.some t) =
      DatasetPage.getTableSelectionState schemaName sel t ∧
    (TableColumnSelector.getTableSelectionState sel tw = TriState.NONE ↔
      entryColumnCount sel tw.full_name = 0) ∧
    (TableColumnSelector.getTableSelectionState sel tw = TriState.ALL ↔
      (entryColumnCount sel tw.full_name = tw.columns.length ∧
        entryColumnCount sel tw.full_name > 0)) ∧
    (TableColumnSelector.getTableSelectionState sel tw = TriState.SOME ↔
      (entryColumnCount sel tw.full_name ≠ 0 ∧
        entryColumnCount sel tw.full_name ≠ tw.columns.length)) ∧
    TableColumnSelector.getHeaderCheckboxState sel (Option.some tw) =
      TableColumnSelector.getTableSelectionState sel tw := by
  have hdp := triStateOf_char (lookupEntry sel (DatasetPage.getTableFullName schemaName t))
    t.columns.length
  have htcs := triStateOf_char (lookupEntry sel tw.full_name) tw.columns.length
  rw [dp_getTableSelectionState_eq, tcs_getTableSelectionState_eq]
  exact ⟨hdp.1, hdp.2.1, hdp.2.2, rfl, htcs.1, htcs.2.1, htcs.2.2, rfl⟩

/-- C7 counterexample: with samples loaded (non-empty rows) for the focused
table and the table's selected column set empty, the samples tab renders the
"No columns selected" panel (lines 893-902) — in particular it does not
render the sample table with all three sample columns, although the
`displayColumns` expression computes exactly that all-columns fallback; the
fallback value is never displayed. -/
theorem C7_counterexample :
    DatasetPage.samplesTabRender false
        (Option.some { columns := ["a", "b", "c"],
                       rows := [[("a", "1"), ("b", "2"), ("c", "3")]] }) []
      = DatasetPage.SamplesTabView.noColumnsSelectedPanel ∧
    DatasetPage.samplesTabRender false
        (Option.some { columns := ["a", "b", "c"],
                       rows := [[("a", "1"), ("b", "2"), ("c", "3")]] }) []
      ≠ DatasetPage.SamplesTabView.sampleTable ["a", "b", "c"] ∧
    DatasetPage.displayColumns
        (Option.some { columns := ["a", "b", "c"],
                       rows := [[("a", "1"), ("b", "2"), ("c", "3")]] }) []
      = ["a", "b", "c"] := by
  decide

/-- C7 (amended): whenever the samples tab actually renders a table (samples
fetched with at least one row, a non-empty selected column set, and at least
one selected column among the sample columns), the displayed column list is
the fetched `sampleColumns` filtered to membership in the entry's selected
columns, in the sample columns' original order (a sublist of
`sampleColumns`, never the selection's order); when the entry's column set
is empty the tab renders the "No columns selected" panel instead of any
table — the `displayColumns` expression computes the all-columns fallback,
but that value is never displayed. -/
theorem C7_sample_projection_amended (samples : TableSampleData)
    (selectedColumnNames : List String) (osamples : Option TableSampleData)
    (hsel : selectedColumnNames ≠ [])
    (hrows : samples.rows ≠ [])
    (hshown : samples.columns.filter (fun c => selectedColumnNames.contains c) ≠ []) :
    DatasetPage.samplesTabRender false (Option.some samples) selectedColumnNames
      = DatasetPage.SamplesTabView.sampleTable
          (samples.columns.filter (fun c => selectedColumnNames.contains c)) ∧
    (∀ c, c ∈ samples.columns.filter (fun c => selectedColumnNames.contains c) ↔
      (c ∈ samples.columns ∧ c ∈ selectedColumnNames)) ∧
    (samples.columns.filter (fun c => selectedColumnNames.contains c)).Sublist
      samples.columns ∧
    DatasetPage.samplesTabRender false osamples []
      = DatasetPage.SamplesTabView.noColumnsSelectedPanel ∧
    DatasetPage.displayColumns (Option.some samples) [] = samples.columns := by
  have hlen : ¬ selectedColumnNames.length = 0 :=
    fun h => hsel (List.length_eq_zero.mp h)
  have hlenpos : selectedColumnNames.length > 0 := Nat.pos_of_ne_zero hlen
  have hdisp : DatasetPage.displayColumns (Option.some samples) selectedColumnNames
      = samples.columns.filter (fun c => selectedColumnNames.contains c) := by
    unfold DatasetPage.displayColumns
    simp [hlenpos]
  have hrowspos : samples.rows.length > 0 := List.length_pos.mpr hrows
  have hshownpos :
      (samples.columns.filter (fun c => selectedColumnNames.contains c)).length > 0 :=
    List.length_pos.mpr hshown
  refine ⟨?_, ?_, List.filter_sublist _, ?_, ?_⟩
  · unfold DatasetPage.samplesTabRender
    rw [hdisp]
    simp [hlen, hrowspos, hshownpos]
    obtain ⟨x, hx⟩ := List.exists_mem_of_ne_nil _ hshown
    rw [List.mem_filter] at hx
    exact ⟨x, hx.1, by simpa using hx.2⟩
  · intro c
    simp [List.mem_filter]
  · unfold DatasetPage.samplesTabRender
    simp
  · unfold DatasetPage.displayColumns
    simp

theorem C7_sample_projection_amended_witness :
    DatasetPage.samplesTabRender false
        (Option.some { columns := ["a", "b", "c"],
                       rows := [[("a", "1"), ("b", "2"), ("c", "3")]] })
        ["b", "a"]
      = DatasetPage.SamplesTabView.sampleTable ["a", "b"] := by
  have h := (C7_sample_projection_amended
      { columns := ["a", "b", "c"], rows := [[("a", "1"), ("b", "2"), ("c", "3")]] }
      ["b", "a"] Option.none (by decide) (by decide) (by decide)).1
  exact h.trans (by decide)

theorem dp_toggleAll_eq_toggleTable (schemaName : String) (t : Table) (prev : SelectedSchema) :
    DatasetPage.handleToggleAllColumns schemaName (Option.some t) prev
      = DatasetPage.handleToggleTableColumns schemaName t prev := rfl

theorem tcs_toggleAll_eq_toggleTable (tw : TableWithColumns) (prev : SelectedSchema) :
    TableColumnSelector.handleToggleAllColumns (Option.some tw) prev
      = TableColumnSelector.handleToggleTableColumns tw prev := rfl

/-- C9: every toggle action (`ToggleColumn` on one table's column,
`ToggleTableAll` on one table, through any of the handlers of either view)
returns a `SelectedSchema` in which the entry of every key other than the
toggled table's `fullName` is exactly what it was before the action. -/
theorem C9_frame (schemaName : String) (prev : SelectedSchema) (k : String) :
    (∀ (selectedTable : Table) (columnName : String),
      k ≠ DatasetPage.getTableFullName schemaName selectedTable →
      lookupEntry (DatasetPage.handleToggleColumn schemaName (Option.some selectedTable)
        columnName prev) k = lookupEntry prev k) ∧
    (∀ t : Table, k ≠ DatasetPage.getTableFullName schemaName t →
      lookupEntry (DatasetPage.handleToggleTableColumns schemaName t prev) k
        = lookupEntry prev k) ∧
    (∀ t : Table, k ≠ DatasetPage.getTableFullName schemaName t →
      lookupEntry (DatasetPage.handleToggleAllColumns schemaName (Option.some t) prev) k
        = lookupEntry prev k) ∧
    (∀ (tw : TableWithColumns) (columnName : String), k ≠ tw.full_name →
      lookupEntry (TableColumnSelector.handleToggleColumn (Option.some tw) columnName prev) k
        = lookupEntry prev k) ∧
    (∀ tw : TableWithColumns, k ≠ tw.full_name →
      lookupEntry (TableColumnSelector.handleToggleTableColumns tw prev) k
        = lookupEntry prev k) ∧
    (∀ tw : TableWithColumns, k ≠ tw.full_name →
      lookupEntry (TableColumnSelector.handleToggleAllColumns (Option.some tw) prev) k
        = lookupEntry prev k) := by
  refine ⟨?_, ?_, ?_, ?_, ?_, ?_⟩
  · intro selectedTable columnName h
    simp only [DatasetPage.handleToggleColumn]
    exact lookupEntry_setEntry_ne _ _ _ _ h
  · intro t h
    simp only [DatasetPage.handleToggleTableColumns]
    split
    · exact lookupEntry_setEntry_ne _ _ _ _ h
    · exact lookupEntry_setEntry_ne _ _ _ _ h
  · intro t h
    rw [dp_toggleAll_eq_toggleTable]
    simp only [DatasetPage.handleToggleTableColumns]
    split
    · exact lookupEntry_setEntry_ne _ _ _ _ h
    · exact lookupEntry_setEntry_ne _ _ _ _ h
  · intro tw columnName h
    simp only [TableColumnSelector.handleToggleColumn]
    exact lookupEntry_setEntry_ne _ _ _ _ h
  · intro tw h
    simp only [TableColumnSelector.handleToggleTableColumns]
    split
    · exact lookupEntry_setEntry_ne _ _ _ _ h
    · exact lookupEntry_setEntry_ne _ _ _ _ h
  · intro tw h
    rw [tcs_toggleAll_eq_toggleTable]
    simp only [TableColumnSelector.handleToggleTableColumns]
    split
    · exact lookupEntry_setEntry_ne _ _ _ _ h
    · exact lookupEntry_setEntry_ne _ _ _ _ h

/-- C10: for a table with an empty column list and no entry yet, the
`allSelected` test of `ToggleTableAll` compares an absent entry's column
count with zero and fails (JS `undefined === 0`), so the select-all branch
runs and installs `{selected: true, columns: []}` — an entry with the
selected flag set and zero columns; a second `ToggleTableAll` then finds
`0 === 0`, takes the clear branch, and installs `{selected: false,
columns: []}`.  Both views behave identically. -/
theorem C10_empty_table_toggle (schemaName : String) (t : Table) (prev : SelectedSchema)
    (tw : TableWithColumns) (prevT : SelectedSchema)
    (hcols : t.columns = [])
    (hnone : lookupEntry prev (DatasetPage.getTableFullName schemaName t) = Option.none)
    (hcolsT : tw.columns = [])
    (hnoneT : lookupEntry prevT tw.full_name = Option.none) :
    lookupEntry (DatasetPage.handleToggleTableColumns schemaName t prev)
        (DatasetPage.getTableFullName schemaName t)
      = Option.some { selected := true, columns := [] } ∧
    lookupEntry
        (DatasetPage.handleToggleTableColumns schemaName t
          (DatasetPage.handleToggleTableColumns schemaName t prev))
        (DatasetPage.getTableFullName schemaName t)
      = Option.some { selected := false, columns := [] } ∧
    lookupEntry (TableColumnSelector.handleToggleTableColumns tw prevT) tw.full_name
      = Option.some { selected := true, columns := [] } ∧
    lookupEntry
        (TableColumnSelector.handleToggleTableColumns tw
          (TableColumnSelector.handleToggleTableColumns tw prevT))
        tw.full_name
      = Option.some { selected := false, columns := [] } := by
  have hfirst :
      DatasetPage.handleToggleTableColumns schemaName t prev
        = setEntry prev (DatasetPage.getTableFullName schemaName t)
            { selected := true, columns := [] } := by
    simp only [DatasetPage.handleToggleTableColumns, hnone, hcols]
    simp
  have hfirstT :
      TableColumnSelector.handleToggleTableColumns tw prevT
        = setEntry prevT tw.full_name { selected := true, columns := [] } := by
    simp only [TableColumnSelector.handleToggleTableColumns, hnoneT, hcolsT]
    simp
  refine ⟨?_, ?_, ?_, ?_⟩
  · rw [hfirst, lookupEntry_setEntry_self]
  · rw [hfirst]
    simp only [DatasetPage.handleToggleTableColumns, lookupEntry_setEntry_self, hcols]
    simp [lookupEntry_setEntry_self]
  · rw [hfirstT, lookupEntry_setEntry_self]
  · rw [hfirstT]
    simp only [TableColumnSelector.handleToggleTableColumns, lookupEntry_setEntry_self, hcolsT]
    simp [lookupEntry_setEntry_self]

theorem C10_empty_table_toggle_witness :
    lookupEntry
        (DatasetPage.handleToggleTableColumns "public" { name := "t", columns := [] } [])
        "public.t"
      = Option.some { selected := true, columns := [] } := by
  have h := C10_empty_table_toggle "public" { name := "t", columns := [] } []
    { schema_name := "public", table_name := "t", full_name := "public.t", columns := [] } []
    rfl rfl rfl rfl
  exact h.1

/-- C1 counterexample: on a table whose snapshot column list is empty and
which has no entry yet, `ToggleTableAll` (through `handleToggleTableColumns`)
produces a `SelectedSchema` holding the entry `{selected: true, columns: []}`,
which violates `selected == (columns.length > 0)`. -/
theorem C1_counterexample :
    ¬ schemaInvariant
      (DatasetPage.handleToggleTableColumns "public" { name := "t", columns := [] } []) := by
  intro h
  have hmem : ("public.t", ({ selected := true, columns := [] } : SelectionEntry)) ∈
      DatasetPage.handleToggleTableColumns "public" { name := "t", columns := [] } [] := by
    decide
  exact absurd (h _ hmem) (by decide)

/-- C1 (amended): starting from a `SelectedSchema` in which every entry
satisfies `selected == (columns.length > 0)`, each selection-mutating handler
of both views preserves that invariant — unconditionally for `ToggleColumn`,
and for `ToggleTableAll` provided the toggled table has at least one column
(for a zero-column table the select-all branch writes
`{selected: true, columns: []}`, the violation shown in the counterexample). -/
theorem C1_amended (schemaName : String) (prev : SelectedSchema)
    (hinv : schemaInvariant prev) :
    (∀ (selectedTable : Option Table) (columnName : String),
      schemaInvariant
        (DatasetPage.handleToggleColumn schemaName selectedTable columnName prev)) ∧
    (∀ t : Table, t.columns ≠ [] →
      schemaInvariant (DatasetPage.handleToggleTableColumns schemaName t prev)) ∧
    (∀ t : Table, t.columns ≠ [] →
      schemaInvariant (DatasetPage.handleToggleAllColumns schemaName (Option.some t) prev)) ∧
    (∀ (selectedTable : Option TableWithColumns) (columnName : String),
      schemaInvariant
        (TableColumnSelector.handleToggleColumn selectedTable columnName prev)) ∧
    (∀ tw : TableWithColumns, tw.columns ≠ [] →
      schemaInvariant (TableColumnSelector.handleToggleTableColumns tw prev)) ∧
    (∀ tw : TableWithColumns, tw.columns ≠ [] →
      schemaInvariant
        (TableColumnSelector.handleToggleAllColumns (Option.some tw) prev)) := by
  have hclear : entryInvariant { selected := false, columns := [] } := by decide
  have hselDP : ∀ t : Table, t.columns ≠ [] →
      entryInvariant { selected := true, columns := t.columns.map (fun c => c.name) } := by
    intro t ht
    unfold entryInvariant
    simp [List.length_pos, ht]
  have hselTCS : ∀ tw : TableWithColumns, tw.columns ≠ [] →
      entryInvariant { selected := true, columns := tw.columns.map (fun c => c.name) } := by
    intro tw ht
    unfold entryInvariant
    simp [List.length_pos, ht]
  refine ⟨?_, ?_, ?_, ?_, ?_, ?_⟩
  · intro selectedTable columnName
    cases selectedTable with
    | none => exact hinv
    | some selTable =>
      simp only [DatasetPage.handleToggleColumn]
      exact setEntry_preserves_invariant hinv rfl
  · intro t ht
    simp only [DatasetPage.handleToggleTableColumns]
    split
    · exact setEntry_preserves_invariant hinv hclear
    · exact setEntry_preserves_invariant hinv (hselDP t ht)
  · intro t ht
    rw [dp_toggleAll_eq_toggleTable]
    simp only [DatasetPage.handleToggleTableColumns]
    split
    · exact setEntry_preserves_invariant hinv hclear
    · exact setEntry_preserves_invariant hinv (hselDP t ht)
  · intro selectedTable columnName
    cases selectedTable with
    | none => exact hinv
    | some selTable =>
      simp only [TableColumnSelector.handleToggleColumn]
      exact setEntry_preserves_invariant hinv rfl
  · intro tw ht
    simp only [TableColumnSelector.handleToggleTableColumns]
    split
    · exact setEntry_preserves_invariant hinv hclear
    · exact setEntry_preserves_invariant hinv (hselTCS tw ht)
  · intro tw ht
    rw [tcs_toggleAll_eq_toggleTable]
    simp only [TableColumnSelector.handleToggleTableColumns]
    split
    · exact setEntry_preserves_invariant hinv hclear
    · exact setEntry_preserves_invariant hinv (hselTCS tw ht)

theorem C1_amended_witness :
    schemaInvariant
      (DatasetPage.handleToggleColumn "public"
        (Option.some { name := "users", columns := [{ name := "id", type := "int" }] })
        "id" []) := by
  have h := (C1_amended "public" [] (by decide)).1
  exact h (Option.some { name := "users", columns := [{ name := "id", type := "int" }] }) "id"

/-- The common body of `handleToggleAllColumns` / `handleToggleTableColumns`
in both views, as a function of the toggled key, the table's column names and
the table's column count. -/
def toggleAllCore (prev : SelectedSchema) (fn : String) (names : List String) (n : Nat) :
    SelectedSchema :=
  let allSelected :=
    match lookupEntry prev fn with
    | Option.some currentSelection => decide (currentSelection.columns.length = n)
    | Option.none => false
  if allSelected then setEntry prev fn { selected := false, columns := [] }
  else setEntry prev fn { selected := true, columns := names }

theorem dp_toggleTable_eq_core (schemaName : String) (t : Table) (prev : SelectedSchema) :
    DatasetPage.handleToggleTableColumns schemaName t prev
      = toggleAllCore prev (DatasetPage.getTableFullName schemaName t)
          (t.columns.map (fun c => c.name)) t.columns.length := rfl

theorem tcs_toggleTable_eq_core (tw : TableWithColumns) (prev : SelectedSchema) :
    TableColumnSelector.handleToggleTableColumns tw prev
      = toggleAllCore prev tw.full_name (tw.columns.map (fun c => c.name))
          tw.columns.length := rfl

theorem toggleAllCore_spec (prev : SelectedSchema) (fn : String) (names : List String)
    (n : Nat) (hn : names.length = n) (h0 : n ≠ 0) :
    (triStateOf (lookupEntry prev fn) n = TriState.ALL →
      lookupEntry (toggleAllCore prev fn names n) fn
        = Option.some { selected := false, columns := [] }) ∧
    (triStateOf (lookupEntry prev fn) n ≠ TriState.ALL →
      lookupEntry (toggleAllCore prev fn names n) fn
        = Option.some { selected := true, columns := names }) ∧
    (triStateOf (lookupEntry prev fn) n = TriState.SOME →
      triStateOf (lookupEntry (toggleAllCore prev fn names n) fn) n = TriState.ALL) := by
  cases hl : lookupEntry prev fn with
  | none =>
    refine ⟨?_, ?_, ?_⟩
    · intro h
      simp [triStateOf] at h
    · intro _
      unfold toggleAllCore
      rw [hl]
      simp [lookupEntry_setEntry_self]
    · intro h
      simp [triStateOf] at h
  | some e =>
    by_cases hall : e.columns.length = n
    · have hne0 : ¬ e.columns.length = 0 := by
        rw [hall]
        exact h0
      have hstate : triStateOf (Option.some e) n = TriState.ALL := by
        simp [triStateOf, hne0, hall, h0]
      refine ⟨?_, ?_, ?_⟩
      · intro _
        unfold toggleAllCore
        rw [hl]
        simp [hall, lookupEntry_setEntry_self]
      · intro h
        exact absurd hstate h
      · intro h
        rw [hstate] at h
        simp at h
    · have hres : lookupEntry (toggleAllCore prev fn names n) fn
          = Option.some { selected := true, columns := names } := by
        unfold toggleAllCore
        rw [hl]
        simp [hall, lookupEntry_setEntry_self]
      refine ⟨?_, ?_, ?_⟩
      · intro h
        have hc := (triStateOf_char (Option.some e) n).2.1.mp h
        simp only [Option.getD_some] at hc
        exact absurd hc.1 hall
      · intro _
        exact hres
      · intro _
        rw [hres]
        simp [triStateOf, hn, h0]

/-- C4 counterexample: for a table whose snapshot column list is empty and
whose entry is the placeholder `{selected:false, columns:[]}`, the aggregate
state is NONE, yet `ToggleTableAll` does not install
`{selected:true, columns: allColumnNamesOf(table)}` — the `allSelected` test
(`0 === 0`) succeeds and the clear branch writes `{selected:false,
columns:[]}` instead. -/
theorem C4_counterexample :
    DatasetPage.getTableSelectionState "public"
        [("public.t", { selected := false, columns := [] })] { name := "t", columns := [] }
      = TriState.NONE ∧
    lookupEntry
        (DatasetPage.handleToggleTableColumns "public" { name := "t", columns := [] }
          [("public.t", { selected := false, columns := [] })])
        "public.t"
      = Option.some { selected := false, columns := [] } ∧
    Option.some ({ selected := false, columns := [] } : SelectionEntry)
      ≠ Option.some
          ({ selected := true,
             columns := (({ name := "t", columns := [] } : Table)).columns.map
               (fun c => c.name) } : SelectionEntry) := by
  decide

/-- C4 (amended): for every table with at least one column, `ToggleTableAll`
(in both views, through either handler) replaces the table's entry with
`{selected:false, columns:[]}` exactly when the aggregate state is ALL, and
with `{selected:true, columns: allColumnNamesOf(table)}` when it is NONE or
SOME; hence a single toggle from SOME always yields ALL.  (For a zero-column
table the counterexample shows NONE resolving to `{selected:false,
columns:[]}` instead.) -/
theorem C4_amended (schemaName : String) (t : Table) (prev : SelectedSchema)
    (tw : TableWithColumns) (prevT : SelectedSchema)
    (ht : t.columns ≠ []) (htw : tw.columns ≠ []) :
    (DatasetPage.getTableSelectionState schemaName prev t = TriState.ALL →
      lookupEntry (DatasetPage.handleToggleTableColumns schemaName t prev)
          (DatasetPage.getTableFullName schemaName t)
        = Option.some { selected := false, columns := [] }) ∧
    (DatasetPage.getTableSelectionState schemaName prev t ≠ TriState.ALL →
      lookupEntry (DatasetPage.handleToggleTableColumns schemaName t prev)
          (DatasetPage.getTableFullName schemaName t)
        = Option.some { selected := true, columns := t.columns.map (fun c => c.name) }) ∧
    (DatasetPage.getTableSelectionState schemaName prev t = TriState.SOME →
      DatasetPage.getTableSelectionState schemaName
          (DatasetPage.handleToggleTableColumns schemaName t prev) t = TriState.ALL) ∧
    DatasetPage.handleToggleAllColumns schemaName (Option.some t) prev
      = DatasetPage.handleToggleTableColumns schemaName t prev ∧
    (TableColumnSelector.getTableSelectionState prevT tw = TriState.ALL →
      lookupEntry (TableColumnSelector.handleToggleTableColumns tw prevT) tw.full_name
        = Option.some { selected := false, columns := [] }) ∧
    (TableColumnSelector.getTableSelectionState prevT tw ≠ TriState.ALL →
      lookupEntry (TableColumnSelector.handleToggleTableColumns tw prevT) tw.full_name
        = Option.some { selected := true, columns := tw.columns.map (fun c => c.name) }) ∧
    (TableColumnSelector.getTableSelectionState prevT tw = TriState.SOME →
      TableColumnSelector.getTableSelectionState
          (TableColumnSelector.handleToggleTableColumns tw prevT) tw = TriState.ALL) ∧
    TableColumnSelector.handleToggleAllColumns (Option.some tw) prevT
      = TableColumnSelector.handleToggleTableColumns tw prevT := by
  have h0 : t.columns.length ≠ 0 := fun h => ht (List.length_eq_zero.mp h)
  have h0T : tw.columns.length ≠ 0 := fun h => htw (List.length_eq_zero.mp h)
  have hcore := toggleAllCore_spec prev (DatasetPage.getTableFullName schemaName t)
    (t.columns.map (fun c => c.name)) t.columns.length (List.length_map _ _) h0
  have hcoreT := toggleAllCore_spec prevT tw.full_name (tw.columns.map (fun c => c.name))
    tw.columns.length (List.length_map _ _) h0T
  simp only [dp_getTableSelectionState_eq, tcs_getTableSelectionState_eq,
    dp_toggleTable_eq_core, tcs_toggleTable_eq_core]
  exact ⟨hcore.1, hcore.2.1, hcore.2.2, rfl, hcoreT.1, hcoreT.2.1, hcoreT.2.2, rfl⟩

theorem C4_amended_witness :
    lookupEntry
        (DatasetPage.handleToggleTableColumns "public"
          { name := "users", columns := [{ name := "id", type := "int" }] } [])
        "public.users"
      = Option.some { selected := true, columns := ["id"] } := by
  have h := (C4_amended "public"
      { name := "users", columns := [{ name := "id", type := "int" }] } []
      { schema_name := "public", table_name := "users", full_name := "public.users",
        columns := [{ name := "id", data_type := "int" }] } []
      (by decide) (by decide)).2.1
  exact h (by decide)

/-- C5 counterexample: in `TableColumnSelector`, when no persisted selection
exists, `loadSchema` does NOT leave the `SelectedSchema` empty — it installs
one placeholder entry `{selected:false, columns:[]}` per fetched table, so
for a two-table schema the resulting map has two entries rather than none. -/
theorem C5_counterexample :
    TableColumnSelector.loadSchemaSelection Option.none
        [{ schema_name := "public", table_name := "users", full_name := "public.users",
           columns := [{ name := "id", data_type := "int" },
             { name := "name", data_type := "text" },
             { name := "email", data_type := "text" }] },
         { schema_name := "public", table_name := "orders", full_name := "public.orders",
           columns := [{ name := "id", data_type := "int" },
             { name := "user_id", data_type := "int" },
             { name := "total", data_type := "numeric" }] }]
      = [("public.users", { selected := false, columns := [] }),
         ("public.orders", { selected := false, columns := [] })] ∧
    ([("public.users", { selected := false, columns := [] }),
      ("public.orders", { selected := false, columns := [] })] : SelectedSchema) ≠ [] := by
  decide

/-- C5 (amended): when no persisted selection exists, the DatasetPage view
starts from the genuinely empty map `{}` (and keeps it when the loaded saved
selection is empty), while the TableColumnSelector view's `loadSchema`
installs one placeholder entry `{selected:false, columns:[]}` per fetched
table; in both views every table's aggregate state reports NONE. -/
theorem C5_amended (data : List TableWithColumns) (schemaName : String) (t : Table) :
    DatasetPage.initialSelectedSchema = ([] : SelectedSchema) ∧
    DatasetPage.applySavedSelection [] DatasetPage.initialSelectedSchema
      = ([] : SelectedSchema) ∧
    DatasetPage.getTableSelectionState schemaName [] t = TriState.NONE ∧
    (∀ tw ∈ data,
      lookupEntry (TableColumnSelector.loadSchemaSelection Option.none data) tw.full_name
        = Option.some { selected := false, columns := [] }) ∧
    (∀ tw ∈ data,
      TableColumnSelector.getTableSelectionState
        (TableColumnSelector.loadSchemaSelection Option.none data) tw = TriState.NONE) ∧
    TableColumnSelector.loadSchemaSelection (Option.some []) data
      = TableColumnSelector.defaultSelection data := by
  have hload : TableColumnSelector.loadSchemaSelection Option.none data
      = TableColumnSelector.defaultSelection data := rfl
  refine ⟨rfl, rfl, ?_, ?_, ?_, rfl⟩
  · rw [dp_getTableSelectionState_eq]
    simp [triStateOf]
  · intro tw htw
    rw [hload]
    exact defaultSelection_lookup data tw htw
  · intro tw htw
    rw [tcs_getTableSelectionState_eq, hload, defaultSelection_lookup data tw htw]
    simp [triStateOf]

/-- C8 counterexample: in the TableColumnSelector tree view, the search
query also matches the SCHEMA name, so the table `public.users` passes the
filter for the query `"publ"` although `"publ"` is not a substring of the
table name `users` — refuting "a table passes the search filter exactly when
the query is a case-insensitive substring of its table name". -/
theorem C8_counterexample :
    ({ schema_name := "public", table_name := "users", full_name := "public.users",
        columns := [] } : TableWithColumns) ∈
      TableColumnSelector.filteredSchema
        [{ schema_name := "public", table_name := "users", full_name := "public.users",
            columns := [] }]
        [] SidebarTab.all "publ" ∧
    jsIncludes (jsToLower "users") (jsToLower "publ") = false := by
  decide

/-- C8 (amended): a table passes the DatasetPage tree-view filter exactly
when the query is a case-insensitive substring of its table name, and the
TableColumnSelector tree-view filter exactly when the query is a
case-insensitive substring of its table name OR of its schema name; in the
detail view a column passes exactly when the query is a case-insensitive
substring of its name or its type; in both tree views the search predicate
is ANDed with the Selected-tab predicate (a non-empty selected column set). -/
theorem C8_amended (tables : List Table) (schemaName : String) (sel : SelectedSchema)
    (q : String) (t : Table) (schema : List TableWithColumns) (tw : TableWithColumns)
    (cq : String) (c : Column) (hq : q ≠ "") (hcq : cq ≠ "") :
    (t ∈ DatasetPage.groupedTablesTables tables schemaName sel SidebarTab.all q ↔
      (t ∈ tables ∧ jsIncludes (jsToLower t.name) (jsToLower q) = true)) ∧
    (t ∈ DatasetPage.groupedTablesTables tables schemaName sel SidebarTab.selected q ↔
      (t ∈ tables ∧
        entryColumnCount sel (DatasetPage.getTableFullName schemaName t) > 0 ∧
        jsIncludes (jsToLower t.name) (jsToLower q) = true)) ∧
    (tw ∈ TableColumnSelector.filteredSchema schema sel SidebarTab.all q ↔
      (tw ∈ schema ∧ (jsIncludes (jsToLower tw.table_name) (jsToLower q) = true ∨
        jsIncludes (jsToLower tw.schema_name) (jsToLower q) = true))) ∧
    (tw ∈ TableColumnSelector.filteredSchema schema sel SidebarTab.selected q ↔
      (tw ∈ schema ∧ entryColumnCount sel tw.full_name > 0 ∧
        (jsIncludes (jsToLower tw.table_name) (jsToLower q) = true ∨
          jsIncludes (jsToLower tw.schema_name) (jsToLower q) = true))) ∧
    (c ∈ DatasetPage.filteredColumns (Option.some t) cq ↔
      (c ∈ t.columns ∧ (jsIncludes (jsToLower c.name) (jsToLower cq) = true ∨
        jsIncludes (jsToLower c.type) (jsToLower cq) = true))) := by
  have hsel : ∀ (m : SelectedSchema) (fn : String),
      (match lookupEntry m fn with
        | Option.some selection => decide (selection.columns.length > 0)
        | Option.none => false) = true ↔ entryColumnCount m fn > 0 := by
    intro m fn
    unfold entryColumnCount
    cases lookupEntry m fn with
    | none => simp
    | some e => simp
  refine ⟨?_, ?_, ?_, ?_, ?_⟩
  · unfold DatasetPage.groupedTablesTables
    simp [hq, List.mem_filter]
  · unfold DatasetPage.groupedTablesTables DatasetPage.tablesWithSelections
    simp only [hq, if_pos, ne_eq, not_false_iff, if_true, reduceIte, List.mem_filter]
    rw [and_assoc]
    constructor
    · intro h
      exact ⟨h.1, (hsel sel (DatasetPage.getTableFullName schemaName t)).mp h.2.1, h.2.2⟩
    · intro h
      exact ⟨h.1, (hsel sel (DatasetPage.getTableFullName schemaName t)).mpr h.2.1, h.2.2⟩
  · unfold TableColumnSelector.filteredSchema
    simp [hq, List.mem_filter]
  · unfold TableColumnSelector.filteredSchema TableColumnSelector.tablesWithSelections
    simp only [hq, if_pos, ne_eq, not_false_iff, if_true, reduceIte, List.mem_filter]
    rw [and_assoc]
    constructor
    · intro h
      refine ⟨h.1, (hsel sel tw.full_name).mp h.2.1, ?_⟩
      simpa using h.2.2
    · intro h
      refine ⟨h.1, (hsel sel tw.full_name).mpr h.2.1, ?_⟩
      simpa using h.2.2
  · unfold DatasetPage.filteredColumns
    simp [hcq, List.mem_filter]

theorem C8_amended_witness :
    ({ name := "users", columns := [] } : Table) ∈
      DatasetPage.groupedTablesTables [{ name := "users", columns := [] }] "public" []
        SidebarTab.all "SER" := by
  have h := (C8_amended [{ name := "users", columns := [] }] "public" [] "SER"
      { name := "users", columns := [] } []
      { schema_name := "public", table_name := "users", full_name := "public.users",
        columns := [] }
      "x" { name := "id", type := "int" } (by decide) (by decide)).1
  exact h.mpr ⟨by decide, by decide⟩

/-- C2 counterexample: the code performs NO reconciliation.  A persisted
selection for `public.users` whose column list is the stale `["legacy_flag"]`
is adopted wholesale into the working selection (DatasetPage's saved-selection
effect, and TableColumnSelector's `initialSelectedSchema` path through
`loadSchema`), even though the fresh snapshot's `public.users` has columns
`id, name` only — the stale column name survives, refuting the claim that
entries are intersected with the snapshot and stale names dropped. -/
theorem C2_counterexample :
    lookupEntry
        (DatasetPage.applySavedSelection
          [("public.users", { selected := true, columns := ["legacy_flag"] })]
          DatasetPage.initialSelectedSchema)
        "public.users"
      = Option.some { selected := true, columns := ["legacy_flag"] } ∧
    ¬ "legacy_flag" ∈
        (({ name := "users",
            columns := [{ name := "id", type := "int" },
              { name := "name", type := "text" }] } : Table).columns.map
          (fun c => c.name)) ∧
    TableColumnSelector.loadSchemaSelection
        (Option.some [("public.users", { selected := true, columns := ["legacy_flag"] })])
        [{ schema_name := "public", table_name := "users", full_name := "public.users",
           columns := [{ name := "id", data_type := "int" },
             { name := "name", data_type := "text" }] }]
      = [("public.users", { selected := true, columns := ["legacy_flag"] })] := by
  decide

/-- C2 (amended): when a fresh schema snapshot arrives together with a
previously persisted non-empty selection, the working `SelectedSchema`
becomes the persisted selection unchanged — no intersection with the
snapshot's tables or columns is performed, so entries for vanished tables and
stale column names (such as `legacy_flag`) survive into the working
selection; no error is raised (the load is total).  Only an absent or empty
persisted selection is replaced (by the untouched current state in
DatasetPage, by per-table placeholder entries in TableColumnSelector). -/
theorem C2_amended (saved current : SelectedSchema) (data : List TableWithColumns)
    (h : saved ≠ []) :
    DatasetPage.applySavedSelection saved current = saved ∧
    TableColumnSelector.loadSchemaSelection (Option.some saved) data = saved := by
  have hlen : saved.length > 0 := by
    cases saved with
    | nil => exact absurd rfl h
    | cons a l => simp
  constructor
  · unfold DatasetPage.applySavedSelection
    simp [hlen]
  · unfold TableColumnSelector.loadSchemaSelection
    have : ¬ saved.length = 0 := Nat.pos_iff_ne_zero.mp hlen
    simp [this]

theorem C2_amended_witness :
    DatasetPage.applySavedSelection
        [("public.users", { selected := true, columns := ["legacy_flag"] })] []
      = [("public.users", { selected := true, columns := ["legacy_flag"] })] := by
  exact (C2_amended [("public.users", { selected := true, columns := ["legacy_flag"] })]
    [] [] (by decide)).1
